import Mathlib

/-!
Shallow embedding of the overlord Tendermint SMR state machine from
`src/smr/state_machine.rs`, together with the supporting data model.

Modelling conventions:
- `u64` values are modelled as `Nat`.  The only arithmetic the SMR performs
  is `round + 1` (guarded increments) and the guarded `round - 1` in
  `handle_continue_round` (where `round > self.round ≥ 0` rules out
  underflow), so no wrap-around semantics are needed.
- `Bytes` (the `Hash` type) is modelled as `List Nat`; the empty list is the
  empty hash produced by `Hash::new()`.
- The two outbound event channels carry identical event streams and, in the
  model, always accept (`unbounded_send` on a live channel); a handler's
  emissions are collected in a single list in emission order, and
  `ThrowEventErr` does not arise.
- Handlers return an `Output` record holding the state after the call, the
  events emitted, and the error returned, if any (in the source every
  `return Err(..)` happens before any field of `self` is assigned, so the
  state in an error output equals the input state).
- The `assert!(msg.source == TriggerSource::State)` in `process` for
  `ContinueRound` triggers is modelled by `process` returning `none`
  (assertion failure aborts instead of returning a `ConsensusResult`).
-/

namespace SMR

/-- Hash type (`Bytes` in the source, `src/types.rs`); a list of bytes. -/
abbrev Hash := List Nat

/-- `Hash::new()`: the empty hash. -/
def Hash.new : Hash := []

/-- `INIT_HEIGHT` from `src/types.rs`. -/
def INIT_HEIGHT : Nat := 0

/-- `INIT_ROUND` from `src/types.rs`. -/
def INIT_ROUND : Nat := 0

/-- `u64::max_value()`. -/
def u64MaxValue : Nat := 2 ^ 64 - 1

/-- Modelled from the spec: the `Step` enum of `smr_types.rs` (declared there,
not under `src/`), with total order Propose < Prevote < Precommit < Commit
and default `Propose` (spec section 3). -/
inductive Step where
  | Propose
  | Prevote
  | Precommit
  | Commit
deriving DecidableEq, Repr

/-- Numeric rank of a step, realising the total order of the source enum. -/
def Step.toNat : Step → Nat
  | Step.Propose => 0
  | Step.Prevote => 1
  | Step.Precommit => 2
  | Step.Commit => 3

instance : LT Step := ⟨fun a b => a.toNat < b.toNat⟩

instance : LE Step := ⟨fun a b => a.toNat ≤ b.toNat⟩

instance (a b : Step) : Decidable (a < b) :=
  inferInstanceAs (Decidable (a.toNat < b.toNat))

instance (a b : Step) : Decidable (a ≤ b) :=
  inferInstanceAs (Decidable (a.toNat ≤ b.toNat))

/-- Modelled from the spec: the PoLC lock of `smr_types.rs` — a pair of the
lock round and the locked proposal hash (spec section 3). -/
structure Lock where
  round : Nat
  hash : Hash
deriving DecidableEq, Repr

/-- `DurationConfig` from `src/types.rs`: the four timeout proportions.  The
SMR never inspects its fields; it only forwards an optional value inside
`NewRoundInfo` events. -/
structure DurationConfig where
  proposeRatio : Nat
  prevoteRatio : Nat
  precommitRatio : Nat
  brakeRatio : Nat
deriving DecidableEq, Repr

/-- Modelled from the spec: `SMRStatus` of `smr_types.rs` — the payload of a
NewHeight trigger: target height, optional new block interval, optional new
validator configuration (spec section 3). -/
structure SMRStatus where
  height : Nat
  new_interval : Option Nat
  new_config : Option DurationConfig
deriving DecidableEq, Repr

/-- Modelled from the spec: trigger source of `smr_types.rs` —
network-validated (`State`) or local timeout (`Timer`). -/
inductive TriggerSource where
  | State
  | Timer
deriving DecidableEq, Repr

/-- Modelled from the spec: trigger type of `smr_types.rs`. -/
inductive TriggerType where
  | NewHeight (status : SMRStatus)
  | Proposal
  | PrevoteQC
  | PrecommitQC
  | ContinueRound
deriving DecidableEq, Repr

/-- Modelled from the spec: the `FromWhere` annotation of `smr_types.rs`,
recording which QC caused a round entry. -/
inductive FromWhere where
  | PrecommitQC (round : Nat)
  | PrevoteQC (round : Nat)
  | ChokeQC (round : Nat)
deriving DecidableEq, Repr

/-- Modelled from the spec: the `SMREvent` union of `smr_types.rs`
(spec section 3, emitted events). -/
inductive SMREvent where
  | NewRoundInfo (height : Nat) (round : Nat) (lock_round : Option Nat)
      (lock_proposal : Option Hash) (new_interval : Option Nat)
      (new_config : Option DurationConfig) (from_where : FromWhere)
  | PrevoteVote (height : Nat) (round : Nat) (block_hash : Hash)
      (lock_round : Option Nat)
  | PrecommitVote (height : Nat) (round : Nat) (block_hash : Hash)
      (lock_round : Option Nat)
  | Commit (hash : Hash)
deriving DecidableEq, Repr

/-- Modelled from the spec: the `ConsensusError` taxonomy of `error.rs`
(declared there, not under `src/`; spec section 7). -/
inductive ConsensusError where
  | ProposalErr (msg : String)
  | CorrectnessErr (msg : String)
  | SelfCheckErr (msg : String)
  | ThrowEventErr (msg : String)
  | Other (msg : String)
deriving DecidableEq, Repr

/-- Modelled from the spec: the `SMRTrigger` envelope of `smr_types.rs`
(spec section 3). -/
structure SMRTrigger where
  trigger_type : TriggerType
  source : TriggerSource
  hash : Hash
  lock_round : Option Nat
  round : Nat
  height : Nat
deriving DecidableEq, Repr

/-- The replica state of `StateMachine` (`src/smr/state_machine.rs`),
without the two outbound channel handles. -/
structure StateMachine where
  height : Nat
  round : Nat
  step : Step
  block_hash : Hash
  lock : Option Lock
deriving DecidableEq, Repr

/-- Result of one handler call: the state after the call, the events emitted
on each stream (both streams receive the same list), and the error, if any. -/
structure Output where
  state : StateMachine
  events : List SMREvent
  error : Option ConsensusError
deriving DecidableEq, Repr

/-- `StateMachine::new()`: the initial replica state. -/
def initState : StateMachine :=
  { height := INIT_HEIGHT
    round := INIT_ROUND
    step := Step.Propose
    block_hash := Hash.new
    lock := none }

/-- `StateMachine::check` (lines 422-451): every invariant check in the body
is commented out in the source, so it returns `Ok(())` unconditionally. -/
def check (_s : StateMachine) : Option ConsensusError := none

/-- `StateMachine::update_polc` (lines 395-404): set the proposal hash, then
remove the lock if the hash is empty, else lock on (round, hash). -/
def update_polc (s : StateMachine) (hash : Hash) (round : Nat) : StateMachine :=
  if hash.isEmpty then
    { s with block_hash := hash, lock := none }
  else
    { s with block_hash := hash, lock := some { round := round, hash := hash } }

/-- The `(lock_round, lock_proposal)` pair computed by `map_or_else` on the
current lock (lines 244-247, 302-305, 341-344). -/
def lockRoundProposal (lock : Option Lock) : Option Nat × Option Hash :=
  match lock with
  | some l => (some l.round, some l.hash)
  | none => (none, none)

/-- Lines 169-178 of `handle_proposal`: emit the `PrevoteVote` for the
current state and go to the Prevote step. -/
def finishProposal (s : StateMachine) : Output :=
  { state := { s with step := Step.Prevote }
    events := [SMREvent.PrevoteVote s.height s.round s.block_hash
      (s.lock.map Lock.round)]
    error := none }

/-- `StateMachine::handle_new_height` (lines 71-99). -/
def handle_new_height (s : StateMachine) (status : SMRStatus)
    (source : TriggerSource) : Output :=
  if source ≠ TriggerSource.State then
    { state := s, events := [],
      error := some (ConsensusError.Other "Rich status source error") }
  else if status.height ≤ s.height then
    { state := s, events := [],
      error := some (ConsensusError.Other "Delayed status") }
  else
    -- goto_new_height, emit NewRoundInfo, goto_step Propose
    { state :=
        { height := status.height, round := INIT_ROUND, step := Step.Propose,
          block_hash := Hash.new, lock := none }
      events := [SMREvent.NewRoundInfo status.height INIT_ROUND none none
        status.new_interval status.new_config
        (FromWhere.PrecommitQC u64MaxValue)]
      error := none }

/-- `StateMachine::handle_proposal` (lines 105-179). -/
def handle_proposal (s : StateMachine) (proposal_hash : Hash) (round : Nat)
    (lock_round : Option Nat) (source : TriggerSource) (height : Nat) :
    Output :=
  if s.height ≠ height ∨ s.round ≠ round then
    { state := s, events := [], error := none }
  else if s.step > Step.Propose then
    { state := s, events := [], error := none }
  else if source = TriggerSource.Timer then
    -- lines 130-145: prevote with the locked hash/round if locked, else empty
    match s.lock with
    | some lock =>
        { state := { s with step := Step.Prevote }
          events := [SMREvent.PrevoteVote s.height s.round lock.hash
            (some lock.round)]
          error := none }
    | none =>
        { state := { s with step := Step.Prevote }
          events := [SMREvent.PrevoteVote s.height s.round Hash.new none]
          error := none }
  else if proposal_hash.isEmpty then
    { state := s, events := [],
      error := some (ConsensusError.ProposalErr "Empty proposal") }
  else
    -- line 151: self.check()? always succeeds (see `check`)
    match lock_round with
    | some lr =>
      match s.lock with
      | some lock =>
        if lr > lock.round then
          -- remove_polc, set_proposal
          finishProposal { s with lock := none, block_hash := proposal_hash }
        else if lr = lock.round ∧ proposal_hash ≠ s.block_hash then
          { state := s, events := [],
            error := some (ConsensusError.CorrectnessErr "Fork") }
        else
          finishProposal s
      | none => finishProposal { s with block_hash := proposal_hash }
    | none =>
      if s.lock = none then
        finishProposal { s with block_hash := proposal_hash }
      else
        finishProposal s

/-- `StateMachine::handle_prevote` (lines 185-272). -/
def handle_prevote (s : StateMachine) (prevote_hash : Hash)
    (prevote_round : Nat) (source : TriggerSource) (height : Nat) : Output :=
  if s.height ≠ height then
    { state := s, events := [], error := none }
  else if prevote_round = s.round ∧ s.step > Step.Prevote then
    { state := s, events := [], error := none }
  else if source = TriggerSource.Timer then
    if prevote_round ≠ s.round then
      { state := s, events := [], error := none }
    else
      -- lines 214-229: keep block_hash when locked, clear it when unlocked;
      -- the precommit vote is always for the empty hash
      match s.lock with
      | some lock =>
          { state := { s with step := Step.Precommit }
            events := [SMREvent.PrecommitVote s.height s.round Hash.new
              (some lock.round)]
            error := none }
      | none =>
          { state := { s with block_hash := Hash.new, step := Step.Precommit }
            events := [SMREvent.PrecommitVote s.height s.round Hash.new none]
            error := none }
  else
    -- line 235: self.check()? always succeeds (see `check`)
    if prevote_round < s.round then
      { state := s, events := [], error := none }
    else
      let s1 := update_polc s prevote_hash prevote_round
      if prevote_round > s.round then
        -- lines 243-260: assign round := prevote_round, emit NewRoundInfo
        -- with round + 1, goto_next_round, then the common tail
        { state := { s1 with round := prevote_round + 1, step := Step.Precommit }
          events := [SMREvent.NewRoundInfo s1.height (prevote_round + 1)
              (lockRoundProposal s1.lock).1 (lockRoundProposal s1.lock).2
              none none (FromWhere.PrevoteQC prevote_round),
            SMREvent.PrecommitVote s1.height (prevote_round + 1)
              s1.block_hash (s1.lock.map Lock.round)]
          error := none }
      else
        -- lines 262-271: common tail only
        { state := { s1 with step := Step.Precommit }
          events := [SMREvent.PrecommitVote s1.height s1.round s1.block_hash
            (s1.lock.map Lock.round)]
          error := none }

/-- `StateMachine::handle_precommit` (lines 278-331).  The `source` argument
is only used for logging in the source; it does not affect the result. -/
def handle_precommit (s : StateMachine) (precommit_hash : Hash)
    (precommit_round : Nat) (_source : TriggerSource) (height : Nat) :
    Output :=
  if s.height ≠ height then
    { state := s, events := [], error := none }
  else if s.step = Step.Commit then
    { state := s, events := [], error := none }
  else if precommit_hash.isEmpty then
    if precommit_round < s.round then
      { state := s, events := [], error := none }
    else
      -- assign round := precommit_round, emit NewRoundInfo with round + 1,
      -- goto_next_round
      { state := { s with round := precommit_round + 1, step := Step.Propose }
        events := [SMREvent.NewRoundInfo s.height (precommit_round + 1)
          (lockRoundProposal s.lock).1 (lockRoundProposal s.lock).2
          none none (FromWhere.PrecommitQC precommit_round)]
        error := none }
  else
    -- line 327: self.check()? always succeeds (see `check`)
    { state := { s with step := Step.Commit }
      events := [SMREvent.Commit precommit_hash]
      error := none }

/-- `StateMachine::handle_continue_round` (lines 333-356). -/
def handle_continue_round (s : StateMachine) (height : Nat) (round : Nat) :
    Output :=
  if height ≠ s.height ∨ round ≤ s.round then
    { state := s, events := [], error := none }
  else
    -- round := round - 1, emit NewRoundInfo with round + 1, goto_next_round
    { state := { s with round := (round - 1) + 1, step := Step.Propose }
      events := [SMREvent.NewRoundInfo s.height ((round - 1) + 1)
        (lockRoundProposal s.lock).1 (lockRoundProposal s.lock).2
        none none (FromWhere.ChokeQC (round - 1))]
      error := none }

/-- `StateMachine::process` (lines 42-67).  Returns `none` when the
`assert!(msg.source == TriggerSource::State)` on the `ContinueRound` arm
fails (panic); otherwise `some` of the handler's output. -/
def process (s : StateMachine) (msg : SMRTrigger) : Option Output :=
  match msg.trigger_type with
  | TriggerType.NewHeight status => some (handle_new_height s status msg.source)
  | TriggerType.Proposal =>
      some (handle_proposal s msg.hash msg.round msg.lock_round msg.source
        msg.height)
  | TriggerType.PrevoteQC =>
      some (handle_prevote s msg.hash msg.round msg.source msg.height)
  | TriggerType.PrecommitQC =>
      some (handle_precommit s msg.hash msg.round msg.source msg.height)
  | TriggerType.ContinueRound =>
      if msg.source = TriggerSource.State then
        some (handle_continue_round s msg.height msg.round)
      else
        none

/-- States reachable from the initial state by any sequence of `process`
calls (the state after a call is `out.state`, also when the call returned an
error). -/
inductive Reachable : StateMachine → Prop where
  | init : Reachable initState
  | step (s : StateMachine) (msg : SMRTrigger) (out : Output) :
      Reachable s → process s msg = some out → Reachable out.state

/-- The lock invariants of spec section 4.1.6 / section 8: a present lock has
a non-empty hash equal to `block_hash` and a round at most the current
round. -/
def LockInv (s : StateMachine) : Prop :=
  ∀ lock, s.lock = some lock →
    lock.hash ≠ [] ∧ lock.hash = s.block_hash ∧ lock.round ≤ s.round

end SMR

namespace SMR

theorem lockInv_of_lock_none (s : StateMachine) (h : s.lock = none) :
    LockInv s := by
  intro lock hl
  rw [h] at hl
  exact Option.noConfusion hl

theorem lockInv_initState : LockInv initState :=
  lockInv_of_lock_none initState rfl

theorem lockInv_finishProposal (s : StateMachine) (hinv : LockInv s) :
    LockInv (finishProposal s).state := by
  intro lock hl
  exact hinv lock hl

theorem lockInv_handle_new_height (s : StateMachine) (status : SMRStatus)
    (src : TriggerSource) (hinv : LockInv s) :
    LockInv (handle_new_height s status src).state := by
  unfold handle_new_height
  split
  · exact hinv
  split
  · exact hinv
  · exact lockInv_of_lock_none _ rfl

theorem lockInv_handle_proposal (s : StateMachine) (ph : Hash) (r : Nat)
    (lr : Option Nat) (src : TriggerSource) (ht : Nat) (hinv : LockInv s) :
    LockInv (handle_proposal s ph r lr src ht).state := by
  unfold handle_proposal
  split
  · exact hinv
  split
  · exact hinv
  split
  · split
    · intro lock hl
      exact hinv lock hl
    · intro lock hl
      exact hinv lock hl
  split
  · exact hinv
  split
  · split
    · split
      · exact lockInv_finishProposal _ (lockInv_of_lock_none _ rfl)
      split
      · exact hinv
      · exact lockInv_finishProposal _ hinv
    · rename_i hnone
      refine lockInv_finishProposal _ (lockInv_of_lock_none _ ?_)
      exact hnone
  · split
    · rename_i hnone
      refine lockInv_finishProposal _ (lockInv_of_lock_none _ ?_)
      exact hnone
    · exact lockInv_finishProposal _ hinv

end SMR

namespace SMR

theorem ne_nil_of_not_isEmpty (h : Hash) (he : ¬ h.isEmpty = true) :
    h ≠ [] := by
  cases h
  · simp at he
  · simp

theorem update_polc_round (s : StateMachine) (ph : Hash) (pr : Nat) :
    (update_polc s ph pr).round = s.round := by
  unfold update_polc
  split <;> rfl

theorem update_polc_height (s : StateMachine) (ph : Hash) (pr : Nat) :
    (update_polc s ph pr).height = s.height := by
  unfold update_polc
  split <;> rfl

theorem lockInv_update_polc_gen (s : StateMachine) (ph : Hash) (pr R : Nat)
    (hR : pr ≤ R) (lock : Lock)
    (hl : (update_polc s ph pr).lock = some lock) :
    lock.hash ≠ [] ∧ lock.hash = (update_polc s ph pr).block_hash ∧
      lock.round ≤ R := by
  unfold update_polc at hl ⊢
  split at hl
  · exact Option.noConfusion hl
  · rename_i he
    rw [if_neg he]
    dsimp only at hl ⊢
    injection hl with hlk
    subst hlk
    exact ⟨ne_nil_of_not_isEmpty ph he, rfl, hR⟩

theorem lockInv_handle_prevote (s : StateMachine) (ph : Hash) (pr : Nat)
    (src : TriggerSource) (ht : Nat) (hinv : LockInv s) :
    LockInv (handle_prevote s ph pr src ht).state := by
  unfold handle_prevote
  split
  · exact hinv
  split
  · exact hinv
  split
  · -- Timer branch
    split
    · exact hinv
    split
    · intro lock hl
      exact hinv lock hl
    · rename_i hnone
      exact lockInv_of_lock_none _ hnone
  · -- State branch
    split
    · exact hinv
    rename_i hnotlt
    dsimp only
    split
    · -- round jump
      intro lock hl
      exact lockInv_update_polc_gen s ph pr (pr + 1) (by omega) lock hl
    · -- same round
      rename_i hngt
      intro lock hl
      have h := lockInv_update_polc_gen s ph pr s.round (by omega) lock hl
      refine ⟨h.1, h.2.1, ?_⟩
      dsimp only
      rw [update_polc_round]
      exact h.2.2

theorem lockInv_handle_precommit (s : StateMachine) (ph : Hash) (pr : Nat)
    (src : TriggerSource) (ht : Nat) (hinv : LockInv s) :
    LockInv (handle_precommit s ph pr src ht).state := by
  unfold handle_precommit
  split
  · exact hinv
  split
  · exact hinv
  split
  · split
    · exact hinv
    · rename_i hnlt
      intro lock hl
      obtain ⟨h1, h2, h3⟩ := hinv lock hl
      refine ⟨h1, h2, ?_⟩
      dsimp only
      omega
  · intro lock hl
    exact hinv lock hl

theorem lockInv_handle_continue_round (s : StateMachine) (ht : Nat) (r : Nat)
    (hinv : LockInv s) :
    LockInv (handle_continue_round s ht r).state := by
  unfold handle_continue_round
  split
  · exact hinv
  · rename_i hg
    intro lock hl
    obtain ⟨h1, h2, h3⟩ := hinv lock hl
    refine ⟨h1, h2, ?_⟩
    dsimp only
    omega

theorem lockInv_process (s : StateMachine) (msg : SMRTrigger) (out : Output)
    (hp : process s msg = some out) (hinv : LockInv s) : LockInv out.state := by
  obtain ⟨tt, msrc, mhash, mlr, mr, mh⟩ := msg
  cases tt with
  | NewHeight status =>
      simp only [process] at hp
      cases hp
      exact lockInv_handle_new_height s status msrc hinv
  | Proposal =>
      simp only [process] at hp
      cases hp
      exact lockInv_handle_proposal s mhash mr mlr msrc mh hinv
  | PrevoteQC =>
      simp only [process] at hp
      cases hp
      exact lockInv_handle_prevote s mhash mr msrc mh hinv
  | PrecommitQC =>
      simp only [process] at hp
      cases hp
      exact lockInv_handle_precommit s mhash mr msrc mh hinv
  | ContinueRound =>
      simp only [process] at hp
      split at hp
      · cases hp
        exact lockInv_handle_continue_round s mh mr hinv
      · exact Option.noConfusion hp

theorem lockInv_reachable (s : StateMachine) (h : Reachable s) : LockInv s := by
  induction h with
  | init => exact lockInv_initState
  | step s msg out hre hp ih => exact lockInv_process s msg out hp ih

end SMR

namespace SMR

/-- C1: For every state reachable from the initial state (height 0, round 0,
step Propose, empty block hash, no lock) by any sequence of `process` calls,
a present lock has a non-empty hash equal to `block_hash` and a lock round
at most the current round. -/
theorem reachable_lock_invariant (s : StateMachine) (h : Reachable s) :
    ∀ lock, s.lock = some lock →
      lock.hash ≠ [] ∧ lock.hash = s.block_hash ∧ lock.round ≤ s.round :=
  lockInv_reachable s h

def c1Msg1 : SMRTrigger where
  trigger_type := TriggerType.NewHeight
    { height := 1, new_interval := none, new_config := none }
  source := TriggerSource.State
  hash := []
  lock_round := none
  round := 0
  height := 0

def c1Out1 : Output where
  state := { height := 1, round := 0, step := Step.Propose,
             block_hash := [], lock := none }
  events := [SMREvent.NewRoundInfo 1 0 none none none none
    (FromWhere.PrecommitQC u64MaxValue)]
  error := none

def c1Msg2 : SMRTrigger where
  trigger_type := TriggerType.Proposal
  source := TriggerSource.State
  hash := [170]
  lock_round := none
  round := 0
  height := 1

def c1Out2 : Output where
  state := { height := 1, round := 0, step := Step.Prevote,
             block_hash := [170], lock := none }
  events := [SMREvent.PrevoteVote 1 0 [170] none]
  error := none

def c1Msg3 : SMRTrigger where
  trigger_type := TriggerType.PrevoteQC
  source := TriggerSource.State
  hash := [170]
  lock_round := none
  round := 0
  height := 1

def c1State : StateMachine where
  height := 1
  round := 0
  step := Step.Precommit
  block_hash := [170]
  lock := some { round := 0, hash := [170] }

def c1Out3 : Output where
  state := c1State
  events := [SMREvent.PrecommitVote 1 0 [170] (some 0)]
  error := none

theorem c1_state_reachable : Reachable c1State := by
  have h0 : Reachable initState := Reachable.init
  have h1 : Reachable c1Out1.state :=
    Reachable.step initState c1Msg1 c1Out1 h0 (by decide)
  have h2 : Reachable c1Out2.state :=
    Reachable.step c1Out1.state c1Msg2 c1Out2 h1 (by decide)
  have h3 : Reachable c1Out3.state :=
    Reachable.step c1Out2.state c1Msg3 c1Out3 h2 (by decide)
  exact h3

theorem reachable_lock_invariant_witness :
    ([170] : Hash) ≠ [] ∧ ([170] : Hash) = c1State.block_hash ∧
      (0 : Nat) ≤ c1State.round :=
  reachable_lock_invariant c1State c1_state_reachable
    { round := 0, hash := [170] } rfl

theorem handle_proposal_state_round (s : StateMachine) (ph : Hash) (r : Nat)
    (lr : Option Nat) (src : TriggerSource) (ht : Nat) :
    (handle_proposal s ph r lr src ht).state.height = s.height ∧
      (handle_proposal s ph r lr src ht).state.round = s.round := by
  unfold handle_proposal finishProposal
  repeat' split
  all_goals exact ⟨rfl, rfl⟩

theorem handle_prevote_round_mono (s : StateMachine) (ph : Hash) (pr : Nat)
    (src : TriggerSource) (ht : Nat) :
    (handle_prevote s ph pr src ht).state.height = s.height ∧
      s.round ≤ (handle_prevote s ph pr src ht).state.round := by
  unfold handle_prevote
  split
  · exact ⟨rfl, Nat.le_refl _⟩
  split
  · exact ⟨rfl, Nat.le_refl _⟩
  split
  · split
    · exact ⟨rfl, Nat.le_refl _⟩
    split
    · exact ⟨rfl, Nat.le_refl _⟩
    · exact ⟨rfl, Nat.le_refl _⟩
  · split
    · exact ⟨rfl, Nat.le_refl _⟩
    rename_i hnlt
    dsimp only
    split
    · rename_i hgt
      constructor
      · dsimp only
        rw [update_polc_height]
      · dsimp only
        omega
    · rename_i hngt
      constructor
      · dsimp only
        rw [update_polc_height]
      · dsimp only
        rw [update_polc_round]

theorem handle_precommit_round_mono (s : StateMachine) (ph : Hash) (pr : Nat)
    (src : TriggerSource) (ht : Nat) :
    (handle_precommit s ph pr src ht).state.height = s.height ∧
      s.round ≤ (handle_precommit s ph pr src ht).state.round := by
  unfold handle_precommit
  split
  · exact ⟨rfl, Nat.le_refl _⟩
  split
  · exact ⟨rfl, Nat.le_refl _⟩
  split
  · split
    · exact ⟨rfl, Nat.le_refl _⟩
    · rename_i hnlt
      refine ⟨rfl, ?_⟩
      dsimp only
      omega
  · exact ⟨rfl, Nat.le_refl _⟩

theorem handle_continue_round_round_mono (s : StateMachine) (ht : Nat)
    (r : Nat) :
    (handle_continue_round s ht r).state.height = s.height ∧
      s.round ≤ (handle_continue_round s ht r).state.round := by
  unfold handle_continue_round
  split
  · exact ⟨rfl, Nat.le_refl _⟩
  · rename_i hg
    refine ⟨rfl, ?_⟩
    dsimp only
    omega

theorem handle_new_height_cases (s : StateMachine) (status : SMRStatus)
    (src : TriggerSource) :
    (handle_new_height s status src).state = s ∨
      s.height < (handle_new_height s status src).state.height := by
  unfold handle_new_height
  split
  · exact Or.inl rfl
  split
  · exact Or.inl rfl
  · rename_i hle
    right
    dsimp only
    omega

/-- C8: For every state and every trigger, if `process` returns and leaves
the height unchanged, the round after the call is at least the round before
the call: within a fixed height the round never decreases across a single
transition. -/
theorem process_round_nondecreasing (s : StateMachine) (msg : SMRTrigger)
    (out : Output) (hp : process s msg = some out)
    (hh : out.state.height = s.height) : s.round ≤ out.state.round := by
  obtain ⟨tt, msrc, mhash, mlr, mr, mh⟩ := msg
  cases tt with
  | NewHeight status =>
      simp only [process] at hp
      cases hp
      rcases handle_new_height_cases s status msrc with h | h
      · rw [h]
      · omega
  | Proposal =>
      simp only [process] at hp
      cases hp
      rw [(handle_proposal_state_round s mhash mr mlr msrc mh).2]
  | PrevoteQC =>
      simp only [process] at hp
      cases hp
      exact (handle_prevote_round_mono s mhash mr msrc mh).2
  | PrecommitQC =>
      simp only [process] at hp
      cases hp
      exact (handle_precommit_round_mono s mhash mr msrc mh).2
  | ContinueRound =>
      simp only [process] at hp
      split at hp
      · cases hp
        exact (handle_continue_round_round_mono s mh mr).2
      · exact Option.noConfusion hp

def c8Msg : SMRTrigger where
  trigger_type := TriggerType.Proposal
  source := TriggerSource.State
  hash := [170]
  lock_round := none
  round := 0
  height := 0

def c8Out : Output where
  state := { height := 0, round := 0, step := Step.Prevote,
             block_hash := [170], lock := none }
  events := [SMREvent.PrevoteVote 0 0 [170] none]
  error := none

theorem process_round_nondecreasing_witness :
    initState.round ≤ c8Out.state.round :=
  process_round_nondecreasing initState c8Msg c8Out (by decide) rfl

end SMR

namespace SMR

theorem isEmpty_eq_true_of_ne_nil (h : Hash) (hne : h ≠ []) :
    ¬ h.isEmpty = true := by
  cases h
  · exact absurd rfl hne
  · simp

/-- C9: For every state and every ContinueRound trigger whose source is
Timer, `process` does not return a `ConsensusResult` at all: the
`assert!(msg.source == TriggerSource::State)` in the entry point fails, so
totality of `process` holds only under the precondition that ContinueRound
triggers are State-sourced. -/
theorem continue_round_timer_panics (s : StateMachine) (msg : SMRTrigger)
    (hty : msg.trigger_type = TriggerType.ContinueRound)
    (hsrc : msg.source = TriggerSource.Timer) : process s msg = none := by
  obtain ⟨tt, msrc, mhash, mlr, mr, mh⟩ := msg
  dsimp only at hty hsrc
  subst hty
  subst hsrc
  simp [process]

def c9Msg : SMRTrigger where
  trigger_type := TriggerType.ContinueRound
  source := TriggerSource.Timer
  hash := []
  lock_round := none
  round := 3
  height := 0

theorem continue_round_timer_panics_witness : process initState c9Msg = none :=
  continue_round_timer_panics initState c9Msg rfl rfl

/-- C10: For every state at the trigger's height whose step is not Commit, a
PrecommitQC trigger with a non-empty hash emits exactly one `Commit(hash)`
event and sets the step to Commit, regardless of the trigger's round and of
its source, leaving height, round, block hash and lock unchanged. -/
theorem precommit_nonempty_commits (s : StateMachine) (msg : SMRTrigger)
    (hty : msg.trigger_type = TriggerType.PrecommitQC)
    (hh : msg.height = s.height) (hstep : s.step ≠ Step.Commit)
    (hhash : msg.hash ≠ []) :
    process s msg = some
      { state := { s with step := Step.Commit }
        events := [SMREvent.Commit msg.hash]
        error := none } := by
  obtain ⟨tt, msrc, mhash, mlr, mr, mh⟩ := msg
  dsimp only at hty hh hhash ⊢
  subst hty
  subst hh
  simp only [process]
  unfold handle_precommit
  rw [if_neg (fun h => h rfl), if_neg hstep,
    if_neg (isEmpty_eq_true_of_ne_nil mhash hhash)]

def c10State : StateMachine where
  height := 1
  round := 0
  step := Step.Precommit
  block_hash := [170]
  lock := some { round := 0, hash := [170] }

def c10Msg : SMRTrigger where
  trigger_type := TriggerType.PrecommitQC
  source := TriggerSource.State
  hash := [170]
  lock_round := none
  round := 0
  height := 1

theorem precommit_nonempty_commits_witness :
    process c10State c10Msg = some
      { state := { c10State with step := Step.Commit }
        events := [SMREvent.Commit c10Msg.hash]
        error := none } :=
  precommit_nonempty_commits c10State c10Msg rfl rfl (by decide) (by decide)

/-- C6: A NewHeight trigger from the Timer source returns
`Other("Rich status source error")`; a NewHeight from the State source with
`status.height ≤ self.height` returns `Other("Delayed status")`; in both
rejection cases the state is unchanged and no event is emitted. -/
theorem new_height_rejections (s : StateMachine) (msg : SMRTrigger)
    (status : SMRStatus)
    (hty : msg.trigger_type = TriggerType.NewHeight status) :
    (msg.source = TriggerSource.Timer →
      process s msg = some
        { state := s, events := [],
          error := some (ConsensusError.Other "Rich status source error") }) ∧
    (msg.source = TriggerSource.State → status.height ≤ s.height →
      process s msg = some
        { state := s, events := [],
          error := some (ConsensusError.Other "Delayed status") }) := by
  obtain ⟨tt, msrc, mhash, mlr, mr, mh⟩ := msg
  dsimp only at hty ⊢
  subst hty
  constructor
  · intro hsrc
    subst hsrc
    simp [process, handle_new_height]
  · intro hsrc hle
    subst hsrc
    simp only [process]
    unfold handle_new_height
    rw [if_neg (fun h => h rfl), if_pos hle]

def c6Status : SMRStatus where
  height := 1
  new_interval := none
  new_config := none

def c6Msg : SMRTrigger where
  trigger_type := TriggerType.NewHeight c6Status
  source := TriggerSource.Timer
  hash := []
  lock_round := none
  round := 0
  height := 0

theorem new_height_rejections_witness :
    (c6Msg.source = TriggerSource.Timer →
      process initState c6Msg = some
        { state := initState, events := [],
          error := some (ConsensusError.Other "Rich status source error") }) ∧
    (c6Msg.source = TriggerSource.State → c6Status.height ≤ initState.height →
      process initState c6Msg = some
        { state := initState, events := [],
          error := some (ConsensusError.Other "Delayed status") }) :=
  new_height_rejections initState c6Msg c6Status rfl

end SMR

namespace SMR

/-- C7: For every Timer-sourced PrevoteQC at the current height: a round
differing from the current round is a silent no-op; otherwise, when the step
guard passes, the handler clears `block_hash` when no lock is held and keeps
it when locked, emits exactly one `PrecommitVote` with the empty hash and
the held lock's round (or none), and moves to the Precommit step. -/
theorem prevote_timer_behaviour (s : StateMachine) (msg : SMRTrigger)
    (hty : msg.trigger_type = TriggerType.PrevoteQC)
    (hsrc : msg.source = TriggerSource.Timer)
    (hh : msg.height = s.height) :
    (msg.round ≠ s.round →
      process s msg = some { state := s, events := [], error := none }) ∧
    (msg.round = s.round → ¬ s.step > Step.Prevote →
      process s msg = some
        { state := { s with
            block_hash := if s.lock = none then [] else s.block_hash,
            step := Step.Precommit }
          events := [SMREvent.PrecommitVote s.height s.round Hash.new
            (s.lock.map Lock.round)]
          error := none }) := by
  obtain ⟨tt, msrc, mhash, mlr, mr, mh⟩ := msg
  dsimp only at hty hsrc hh ⊢
  subst hty
  subst hsrc
  subst hh
  constructor
  · intro hne
    simp only [process]
    unfold handle_prevote
    rw [if_neg (fun h => h rfl), if_neg (fun h => hne h.1),
      if_pos rfl, if_pos hne]
  · intro heq hstep
    subst heq
    simp only [process]
    unfold handle_prevote
    rw [if_neg (fun h => h rfl), if_neg (fun h => hstep h.2), if_pos rfl,
      if_neg (fun h => h rfl)]
    cases hl : s.lock with
    | none => simp [hl, Hash.new]
    | some lock => simp [hl]

def c7State : StateMachine where
  height := 1
  round := 2
  step := Step.Prevote
  block_hash := [170]
  lock := none

def c7Msg : SMRTrigger where
  trigger_type := TriggerType.PrevoteQC
  source := TriggerSource.Timer
  hash := []
  lock_round := none
  round := 2
  height := 1

theorem prevote_timer_behaviour_witness :
    (c7Msg.round ≠ c7State.round →
      process c7State c7Msg = some
        { state := c7State, events := [], error := none }) ∧
    (c7Msg.round = c7State.round → ¬ c7State.step > Step.Prevote →
      process c7State c7Msg = some
        { state := { c7State with
            block_hash := if c7State.lock = none then [] else c7State.block_hash,
            step := Step.Precommit }
          events := [SMREvent.PrecommitVote c7State.height c7State.round
            Hash.new (c7State.lock.map Lock.round)]
          error := none }) :=
  prevote_timer_behaviour c7State c7Msg rfl rfl rfl

/-- C5: For every state-sourced PrevoteQC at the current height with a round
strictly above the current round, the handler emits a `NewRoundInfo` whose
round is `prevote_round + 1` and whose `from_where` is
`PrevoteQC(prevote_round)`, followed by the `PrecommitVote`, and the
replica's round after the call equals `prevote_round + 1` — the round
reported in the event is the round the replica occupies after the handler
returns. -/
theorem prevote_qc_round_jump (s : StateMachine) (msg : SMRTrigger)
    (out : Output) (hty : msg.trigger_type = TriggerType.PrevoteQC)
    (hsrc : msg.source = TriggerSource.State)
    (hh : msg.height = s.height) (hr : s.round < msg.round)
    (hp : process s msg = some out) :
    out.error = none ∧ out.state.round = msg.round + 1 ∧
      out.state.step = Step.Precommit ∧
      ∃ lr lp bh lr2, out.events =
        [SMREvent.NewRoundInfo s.height (msg.round + 1) lr lp none none
          (FromWhere.PrevoteQC msg.round),
         SMREvent.PrecommitVote s.height (msg.round + 1) bh lr2] := by
  obtain ⟨tt, msrc, mhash, mlr, mr, mh⟩ := msg
  dsimp only at hty hsrc hh hr hp ⊢
  subst hty
  subst hsrc
  subst hh
  simp only [process] at hp
  cases hp
  unfold handle_prevote
  rw [if_neg (fun h => h rfl), if_neg (fun h => by omega),
    if_neg (fun h => TriggerSource.noConfusion h), if_neg (by omega)]
  dsimp only
  rw [if_pos hr]
  refine ⟨rfl, rfl, rfl, (lockRoundProposal (update_polc s mhash mr).lock).1,
    (lockRoundProposal (update_polc s mhash mr).lock).2,
    (update_polc s mhash mr).block_hash,
    ((update_polc s mhash mr).lock.map Lock.round), ?_⟩
  rw [update_polc_height]

def c5State : StateMachine where
  height := 1
  round := 0
  step := Step.Prevote
  block_hash := [170]
  lock := none

def c5Msg : SMRTrigger where
  trigger_type := TriggerType.PrevoteQC
  source := TriggerSource.State
  hash := [170]
  lock_round := none
  round := 2
  height := 1

def c5Out : Output where
  state := { height := 1, round := 3, step := Step.Precommit,
             block_hash := [170], lock := some { round := 2, hash := [170] } }
  events := [SMREvent.NewRoundInfo 1 3 (some 2) (some [170]) none none
      (FromWhere.PrevoteQC 2),
    SMREvent.PrecommitVote 1 3 [170] (some 2)]
  error := none

theorem prevote_qc_round_jump_witness :
    c5Out.error = none ∧ c5Out.state.round = c5Msg.round + 1 ∧
      c5Out.state.step = Step.Precommit ∧
      ∃ lr lp bh lr2, c5Out.events =
        [SMREvent.NewRoundInfo c5State.height (c5Msg.round + 1) lr lp none
          none (FromWhere.PrevoteQC c5Msg.round),
         SMREvent.PrecommitVote c5State.height (c5Msg.round + 1) bh lr2] :=
  prevote_qc_round_jump c5State c5Msg c5Out rfl rfl rfl (by decide) (by decide)

end SMR

namespace SMR

def c4CexMsg : SMRTrigger where
  trigger_type := TriggerType.NewHeight
    { height := 1, new_interval := none, new_config := none }
  source := TriggerSource.State
  hash := []
  lock_round := none
  round := 0
  height := 5

/-- C4 counterexample: a NewHeight trigger whose envelope height (5) differs
from the current height (0) is not dropped: `handle_new_height` only looks
at `status.height`, so `process` succeeds, mutates the state and emits a
`NewRoundInfo` event. -/
theorem height_mismatch_counterexample :
    c4CexMsg.height ≠ initState.height ∧
    process initState c4CexMsg = some
      { state := { height := 1, round := 0, step := Step.Propose,
                   block_hash := [], lock := none }
        events := [SMREvent.NewRoundInfo 1 0 none none none none
          (FromWhere.PrecommitQC u64MaxValue)]
        error := none } ∧
    ¬ ({ height := 1, round := 0, step := Step.Propose, block_hash := [],
         lock := none } : StateMachine) = initState := by
  decide

/-- C4 amended: for every Proposal, PrevoteQC or PrecommitQC trigger, and
every State-sourced ContinueRound trigger, whose height field differs from
the replica's current height, `process` returns success, leaves the state
unchanged and emits no event.  NewHeight triggers are excluded: they are
governed by `status.height`, not the envelope height; Timer-sourced
ContinueRound triggers fail an assertion instead. -/
theorem height_mismatch_dropped (s : StateMachine) (msg : SMRTrigger)
    (hty : msg.trigger_type = TriggerType.Proposal ∨
      msg.trigger_type = TriggerType.PrevoteQC ∨
      msg.trigger_type = TriggerType.PrecommitQC ∨
      (msg.trigger_type = TriggerType.ContinueRound ∧
        msg.source = TriggerSource.State))
    (hh : msg.height ≠ s.height) :
    process s msg = some { state := s, events := [], error := none } := by
  obtain ⟨tt, msrc, mhash, mlr, mr, mh⟩ := msg
  dsimp only at hty hh ⊢
  rcases hty with h | h | h | ⟨h, hs⟩ <;> subst h
  · simp only [process]
    unfold handle_proposal
    rw [if_pos (Or.inl (fun he => hh he.symm))]
  · simp only [process]
    unfold handle_prevote
    rw [if_pos (fun he => hh he.symm)]
  · simp only [process]
    unfold handle_precommit
    rw [if_pos (fun he => hh he.symm)]
  · subst hs
    simp only [process, if_true]
    unfold handle_continue_round
    rw [if_pos (Or.inl hh)]

def c4Msg : SMRTrigger where
  trigger_type := TriggerType.Proposal
  source := TriggerSource.State
  hash := [170]
  lock_round := none
  round := 0
  height := 7

theorem height_mismatch_dropped_witness :
    process initState c4Msg = some
      { state := initState, events := [], error := none } :=
  height_mismatch_dropped initState c4Msg (Or.inl rfl) (by decide)

end SMR

namespace SMR

theorem step_eq_propose_of_not_gt (st : Step) (h : ¬ st > Step.Propose) :
    st = Step.Propose := by
  cases st
  · rfl
  · exact absurd (by decide) h
  · exact absurd (by decide) h
  · exact absurd (by decide) h

theorem handle_proposal_fork_cases (s : StateMachine) (ph : Hash) (r : Nat)
    (mlr : Option Nat) (src : TriggerSource) (ht : Nat)
    (he : (handle_proposal s ph r mlr src ht).error =
      some (ConsensusError.CorrectnessErr "Fork")) :
    ht = s.height ∧ r = s.round ∧ s.step = Step.Propose ∧
      src = TriggerSource.State ∧ ph ≠ [] ∧
      (∃ lock, s.lock = some lock ∧ mlr = some lock.round) ∧
      ph ≠ s.block_hash ∧
      handle_proposal s ph r mlr src ht =
        { state := s, events := [],
          error := some (ConsensusError.CorrectnessErr "Fork") } := by
  unfold handle_proposal at he
  split at he
  · simp at he
  rename_i h1
  split at he
  · simp at he
  rename_i h2
  split at he
  · split at he
    · simp at he
    · simp at he
  rename_i h3
  split at he
  · simp at he
  rename_i h4
  split at he
  · rename_i lr0 hlr
    split at he
    · rename_i lock hlock
      split at he
      · simp [finishProposal] at he
      rename_i h5
      split at he
      · rename_i h6
        refine ⟨by omega, by omega, step_eq_propose_of_not_gt s.step h2,
          ?_, ne_nil_of_not_isEmpty ph h4, ⟨lock, hlock, ?_⟩, h6.2, ?_⟩
        · cases src
          · rfl
          · exact absurd rfl h3
        · rw [h6.1]
        · unfold handle_proposal
          rw [if_neg h1, if_neg h2, if_neg h3, if_neg h4]
          dsimp only
          rw [hlock]
          dsimp only
          rw [if_neg h5, if_pos h6]
      · simp [finishProposal] at he
    · simp [finishProposal] at he
  · rename_i hlr
    split at he
    · simp [finishProposal] at he
    · simp [finishProposal] at he

theorem handle_proposal_fork_intro (s : StateMachine) (ph : Hash)
    (lock : Lock) (hstep : s.step = Step.Propose) (hlock : s.lock = some lock)
    (hne : ph ≠ []) (hneq : ph ≠ s.block_hash) :
    handle_proposal s ph s.round (some lock.round) TriggerSource.State
      s.height =
      { state := s, events := [],
        error := some (ConsensusError.CorrectnessErr "Fork") } := by
  unfold handle_proposal
  rw [if_neg (fun h => h.elim (fun h1 => h1 rfl) (fun h2 => h2 rfl))]
  rw [if_neg (show ¬ s.step > Step.Propose by rw [hstep]; decide)]
  rw [if_neg (by decide : ¬ (TriggerSource.State = TriggerSource.Timer))]
  rw [if_neg (isEmpty_eq_true_of_ne_nil ph hne)]
  dsimp only
  rw [hlock]
  dsimp only
  rw [if_neg (by omega : ¬ lock.round > lock.round), if_pos ⟨rfl, hneq⟩]

theorem handle_new_height_no_fork (s : StateMachine) (status : SMRStatus)
    (src : TriggerSource) :
    ¬ (handle_new_height s status src).error =
      some (ConsensusError.CorrectnessErr "Fork") := by
  unfold handle_new_height
  split
  · simp
  split
  · simp
  · simp

theorem handle_prevote_error_none (s : StateMachine) (ph : Hash) (pr : Nat)
    (src : TriggerSource) (ht : Nat) :
    (handle_prevote s ph pr src ht).error = none := by
  unfold handle_prevote
  repeat' split
  all_goals rfl

theorem handle_precommit_error_none (s : StateMachine) (ph : Hash) (pr : Nat)
    (src : TriggerSource) (ht : Nat) :
    (handle_precommit s ph pr src ht).error = none := by
  unfold handle_precommit
  repeat' split
  all_goals rfl

theorem handle_continue_round_error_none (s : StateMachine) (ht : Nat)
    (r : Nat) : (handle_continue_round s ht r).error = none := by
  unfold handle_continue_round
  repeat' split
  all_goals rfl

/-- C2 amended: `process` returns `CorrectnessErr("Fork")` if and only if
the trigger is a state-sourced Proposal at the current height and current
round, while the step is still Propose, with a non-empty hash distinct from
the current `block_hash`, carrying `lock_round` equal to the round of the
current lock; and in that case the state is unchanged and no event is
emitted. -/
theorem fork_characterisation (s : StateMachine) (msg : SMRTrigger)
    (out : Output) (hp : process s msg = some out) :
    (out.error = some (ConsensusError.CorrectnessErr "Fork") ↔
      (msg.trigger_type = TriggerType.Proposal ∧
        msg.source = TriggerSource.State ∧ msg.height = s.height ∧
        msg.round = s.round ∧ s.step = Step.Propose ∧ msg.hash ≠ [] ∧
        (∃ lock, s.lock = some lock ∧
          msg.lock_round = some lock.round) ∧
        msg.hash ≠ s.block_hash)) ∧
    (out.error = some (ConsensusError.CorrectnessErr "Fork") →
      out.state = s ∧ out.events = []) := by
  obtain ⟨tt, msrc, mhash, mlr, mr, mh⟩ := msg
  dsimp only
  cases tt with
  | NewHeight status =>
      simp only [process] at hp
      cases hp
      refine ⟨⟨fun he => absurd he (handle_new_height_no_fork s status msrc),
        fun hc => TriggerType.noConfusion hc.1⟩,
        fun he => absurd he (handle_new_height_no_fork s status msrc)⟩
  | Proposal =>
      simp only [process] at hp
      cases hp
      constructor
      · constructor
        · intro he
          obtain ⟨e1, e2, e3, e4, e5, e6, e7, -⟩ :=
            handle_proposal_fork_cases s mhash mr mlr msrc mh he
          exact ⟨rfl, e4, e1, e2, e3, e5, e6, e7⟩
        · rintro ⟨-, hsrc, hh, hr, hstep, hne, ⟨lock, hlock, hmlr⟩, hneq⟩
          subst hsrc
          subst hh
          subst hr
          subst hmlr
          rw [handle_proposal_fork_intro s mhash lock hstep hlock hne hneq]
      · intro he
        obtain ⟨-, -, -, -, -, -, -, e8⟩ :=
          handle_proposal_fork_cases s mhash mr mlr msrc mh he
        rw [e8]
        exact ⟨rfl, rfl⟩
  | PrevoteQC =>
      simp only [process] at hp
      cases hp
      rw [handle_prevote_error_none s mhash mr msrc mh]
      refine ⟨⟨fun he => Option.noConfusion he,
        fun hc => TriggerType.noConfusion hc.1⟩,
        fun he => Option.noConfusion he⟩
  | PrecommitQC =>
      simp only [process] at hp
      cases hp
      rw [handle_precommit_error_none s mhash mr msrc mh]
      refine ⟨⟨fun he => Option.noConfusion he,
        fun hc => TriggerType.noConfusion hc.1⟩,
        fun he => Option.noConfusion he⟩
  | ContinueRound =>
      simp only [process] at hp
      split at hp
      · cases hp
        rw [handle_continue_round_error_none s mh mr]
        refine ⟨⟨fun he => Option.noConfusion he,
          fun hc => TriggerType.noConfusion hc.1⟩,
          fun he => Option.noConfusion he⟩
      · exact Option.noConfusion hp

def c2CexState : StateMachine where
  height := 1
  round := 0
  step := Step.Prevote
  block_hash := [170]
  lock := some { round := 0, hash := [170] }

def c2CexMsg : SMRTrigger where
  trigger_type := TriggerType.Proposal
  source := TriggerSource.State
  hash := [204]
  lock_round := some 0
  round := 0
  height := 1

/-- C2 counterexample: every condition of the claim holds — a state-sourced
Proposal whose hash [204] differs from the current block hash [170],
carrying lock_round 0 equal to the round of the current lock, at the current
height 1 — yet `process` returns success with no Fork error, because the
step guard (step Prevote > Propose) drops the trigger first. -/
theorem fork_characterisation_counterexample :
    c2CexMsg.trigger_type = TriggerType.Proposal ∧
    c2CexMsg.source = TriggerSource.State ∧
    c2CexMsg.height = c2CexState.height ∧
    c2CexMsg.hash ≠ c2CexState.block_hash ∧
    c2CexState.lock = some { round := 0, hash := [170] } ∧
    c2CexMsg.lock_round = some (0 : Nat) ∧
    process c2CexState c2CexMsg =
      some { state := c2CexState, events := [], error := none } := by
  decide

def c2State : StateMachine where
  height := 1
  round := 0
  step := Step.Propose
  block_hash := [170]
  lock := some { round := 0, hash := [170] }

def c2Msg : SMRTrigger where
  trigger_type := TriggerType.Proposal
  source := TriggerSource.State
  hash := [204]
  lock_round := some 0
  round := 0
  height := 1

def c2Out : Output where
  state := c2State
  events := []
  error := some (ConsensusError.CorrectnessErr "Fork")

theorem fork_characterisation_witness :
    (c2Out.error = some (ConsensusError.CorrectnessErr "Fork") ↔
      (c2Msg.trigger_type = TriggerType.Proposal ∧
        c2Msg.source = TriggerSource.State ∧
        c2Msg.height = c2State.height ∧ c2Msg.round = c2State.round ∧
        c2State.step = Step.Propose ∧ c2Msg.hash ≠ [] ∧
        (∃ lock, c2State.lock = some lock ∧
          c2Msg.lock_round = some lock.round) ∧
        c2Msg.hash ≠ c2State.block_hash)) ∧
    (c2Out.error = some (ConsensusError.CorrectnessErr "Fork") →
      c2Out.state = c2State ∧ c2Out.events = []) :=
  fork_characterisation c2State c2Msg c2Out (by decide)

end SMR

namespace SMR

def c3State : StateMachine where
  height := 1
  round := 0
  step := Step.Propose
  block_hash := [170]
  lock := some { round := 0, hash := [187] }

def c3Msg : SMRTrigger where
  trigger_type := TriggerType.Proposal
  source := TriggerSource.State
  hash := [204]
  lock_round := none
  round := 0
  height := 1

/-- C3: the self-check of the source is a no-op — `check` returns `Ok(())`
unconditionally because all four invariant checks in its body are commented
out — so a state-sourced Proposal processed in a state whose lock hash [187]
differs from `block_hash` [170] proceeds and emits a `PrevoteVote` instead of
returning `SelfCheckErr`. -/
theorem self_check_no_op :
    (∀ s, check s = none) ∧
    c3State.lock = some { round := 0, hash := [187] } ∧
    c3State.block_hash = [170] ∧
    process c3State c3Msg = some
      { state := { c3State with step := Step.Prevote }
        events := [SMREvent.PrevoteVote 1 0 [170] (some 0)]
        error := none } :=
  ⟨fun _ => rfl, rfl, rfl, by decide⟩

end SMR
